import Mathlib

/-!
Verification of the interview-copilot core: the transcription buffer
(src/audio_handler.py), the session manager (src/session_manager.py) and the
LLM client's validation / question-detection / answer-generation logic
(src/llm_client.py), shallowly embedded in Lean.  Python strings are modelled
as `String` (or `List Char` where character-level reasoning is needed); the
stateful manager is modelled by explicit state passing; the filesystem is an
explicit field of the manager state.
-/

set_option maxHeartbeats 1000000
set_option maxRecDepth 16384

namespace InterviewCopilot

/-! ### Python string primitives (ASCII model)

`pyIsSpace` models the characters Python's `str.strip` / `str.split()` treat
as whitespace (the ASCII ones plus the C1 separators and NEL, which Python's
`str.isspace` also accepts). -/

def pyIsSpace (c : Char) : Bool :=
  c == ' ' || c == '\t' || c == '\n' || c == '\x0b' || c == '\x0c' || c == '\r' ||
  c == '\x1c' || c == '\x1d' || c == '\x1e' || c == '\x1f' || c == '\x85'

/-- Python `str.strip()`: drop leading and trailing whitespace. -/
def pyStrip (l : List Char) : List Char :=
  ((l.dropWhile pyIsSpace).reverse.dropWhile pyIsSpace).reverse

/-- ASCII lower-casing of one character, as Python `str.lower` acts on the
ASCII range (codes 65-90 map to 97-122, everything else is unchanged). -/
def pyLowerChar : Char → Char
  | 'A' => 'a' | 'B' => 'b' | 'C' => 'c' | 'D' => 'd' | 'E' => 'e' | 'F' => 'f'
  | 'G' => 'g' | 'H' => 'h' | 'I' => 'i' | 'J' => 'j' | 'K' => 'k' | 'L' => 'l'
  | 'M' => 'm' | 'N' => 'n' | 'O' => 'o' | 'P' => 'p' | 'Q' => 'q' | 'R' => 'r'
  | 'S' => 's' | 'T' => 't' | 'U' => 'u' | 'V' => 'v' | 'W' => 'w' | 'X' => 'x'
  | 'Y' => 'y' | 'Z' => 'z'
  | c => c

def pyLower (l : List Char) : List Char := l.map pyLowerChar

/-- Worker for Python `str.split()` (split on whitespace runs, no empty
words); `acc` holds the reversed current word. -/
def splitWsAux : List Char → List Char → List (List Char)
  | [], acc => if acc = [] then [] else [acc.reverse]
  | c :: cs, acc =>
    if pyIsSpace c then
      if acc = [] then splitWsAux cs []
      else acc.reverse :: splitWsAux cs []
    else splitWsAux cs (c :: acc)

/-- Python `str.split()` with no arguments. -/
def pySplit (l : List Char) : List (List Char) := splitWsAux l []

/-! ### Transcription buffer (AudioHandler)

The buffer is the lock-guarded `self.transcription_buffer` list.  Each
operation below is the body of one critical section of the Python code, so
one Lean state transition is exactly one lock-held region; in particular
`popBuffer` performs the read and the clear in a single transition. -/

/-- `with self.buffer_lock: self.transcription_buffer.append(text)`. -/
def appendFinal (buf : List String) (text : String) : List String := buf ++ [text]

/-- `AudioHandler.get_buffer_text`: `" ".join(self.transcription_buffer)`. -/
def getBufferText (buf : List String) : String := String.intercalate " " buf

/-- `AudioHandler.pop_buffer`: join the buffer and clear it in one critical
section; returns the joined text and the post-state of the buffer. -/
def popBuffer (buf : List String) : String × List String :=
  (String.intercalate " " buf, [])

/-- `AudioHandler.clear_buffer` (the buffer part). -/
def clearBuffer (_ : List String) : List String := []

/-- `AudioHandler.get_buffer_word_count`:
`len(text.split()) if text.strip() else 0`. -/
def getBufferWordCount (buf : List String) : Nat :=
  let text := getBufferText buf
  if pyStrip text.toList = [] then 0 else (pySplit text.toList).length

theorem foldl_appendFinal (segs : List String) (init : List String) :
    segs.foldl appendFinal init = init ++ segs := by
  induction segs generalizing init with
  | nil => simp
  | cons s ss ih => simp [appendFinal, ih]

/-- Claim C1: after any sequence of `append_final` calls on an initially
empty buffer, `pop_buffer` returns the appended segments joined in arrival
order by single spaces and leaves the buffer empty: the post-pop snapshot is
`""` and the post-pop word count is `0`.  Atomicity is modelled by
`popBuffer` being one state transition (one lock-held critical section). -/
theorem c1_pop_buffer_returns_joined_and_clears (segs : List String) :
    popBuffer (segs.foldl appendFinal []) = (String.intercalate " " segs, ([] : List String))
    ∧ getBufferText (popBuffer (segs.foldl appendFinal [])).2 = ""
    ∧ getBufferWordCount (popBuffer (segs.foldl appendFinal [])).2 = 0 := by
  refine ⟨?_, ?_, ?_⟩
  · rw [foldl_appendFinal]; rfl
  · rfl
  · rfl

/-! ### Session model (session_manager.py)

A Python message dict `{"role": r, "content": c}` is a `Message`; the
manager's filesystem effects (the session file and the temp file used by the
atomic write) are explicit fields of `ManagerState`. -/

structure Message where
  role : String
  content : String
deriving DecidableEq, Repr

/-- Python `l[-n:]` on lists (note `l[-0:]` is the whole list). -/
def lastSlice {α : Type} (n : Nat) (l : List α) : List α :=
  if n = 0 then l else l.drop (l.length - n)

structure InterviewSession where
  session_id : String
  profile : String
  job_context : String
  system_instruction : String
  created_at : String
  /-- the cached `_system_message` dict (dataclass default: empty) -/
  system_message : Message := { role := "", content := "" }
  /-- the cached `_context_template` string (dataclass default: `""`) -/
  context_template : String := ""
  history : List (String × String) := []
  max_history : Nat := 3
deriving DecidableEq, Repr

/-- The left brace character (named so no brace appears in a literal). -/
def lbrace : Char := Char.ofNat 123

/-- The right brace character. -/
def rbrace : Char := Char.ofNat 125

/-- Scanner states for Python `str.format`: plain text, a just-seen left or
right brace (lookahead for the doubled-brace escapes), or inside a
replacement field (name accumulated in reverse). -/
inductive FmtMode where
  | text
  | sawLeft
  | sawRight
  | field (acc : List Char)

/-- Scanner for Python `str.format(question=...)`: doubled braces unescape
to one brace; a `question` replacement field substitutes the question; any
other replacement field raises `KeyError`/`IndexError`; a stray or
unterminated brace raises `ValueError`.  Exception kinds are collapsed into
the `Except.error` payload, which keeps their messages. -/
def pyFormatAux (question : List Char) : List Char → FmtMode → Except String (List Char)
  | [], FmtMode.text => Except.ok []
  | [], FmtMode.sawLeft => Except.error "ValueError: Single left-brace encountered in format string"
  | [], FmtMode.sawRight => Except.error "ValueError: Single right-brace encountered in format string"
  | [], FmtMode.field _ => Except.error "ValueError: Single left-brace encountered in format string"
  | c :: rest, FmtMode.text =>
    if c = lbrace then pyFormatAux question rest FmtMode.sawLeft
    else if c = rbrace then pyFormatAux question rest FmtMode.sawRight
    else (pyFormatAux question rest FmtMode.text).map (fun r => c :: r)
  | c :: rest, FmtMode.sawLeft =>
    if c = lbrace then (pyFormatAux question rest FmtMode.text).map (fun r => lbrace :: r)
    else if c = rbrace then Except.error "IndexError: empty replacement field"
    else pyFormatAux question rest (FmtMode.field [c])
  | c :: rest, FmtMode.sawRight =>
    if c = rbrace then (pyFormatAux question rest FmtMode.text).map (fun r => rbrace :: r)
    else Except.error "ValueError: Single right-brace encountered in format string"
  | c :: rest, FmtMode.field acc =>
    if c = rbrace then
      if acc.reverse = String.toList "question" then
        (pyFormatAux question rest FmtMode.text).map (fun r => question ++ r)
      else Except.error ("KeyError: " ++ acc.reverse.asString)
    else if c = lbrace then Except.error "ValueError: unexpected left-brace in field name"
    else pyFormatAux question rest (FmtMode.field (c :: acc))

/-- Python `self._context_template.format(question=question)`: substitution
succeeds, or the `KeyError`/`ValueError` that `str.format` raises is the
error case.  Conversion and format-spec suffixes on a field (e.g. a
`:>10` padding spec) are not modelled — the templates this program compiles
contain only the bare `question` placeholder, and no claim depends on
them. -/
def formatTemplate (template question : String) : Except String String :=
  (pyFormatAux question.toList template.toList FmtMode.text).map List.asString

/-- `InterviewSession.build_messages`: start from the cached system message,
loop over `history[-max_history:]` appending a user and an assistant message
per pair, then format the context template and append the result — or raise
(error case) when `str.format` raises on the template. -/
def buildMessages (s : InterviewSession) (question : String) : Except String (List Message) :=
  let messages : List Message := [s.system_message]
  let messages := (lastSlice s.max_history s.history).foldl
    (fun ms qa => ms ++ [Message.mk "user" qa.1, Message.mk "assistant" qa.2]) messages
  match formatTemplate s.context_template question with
  | Except.error e => Except.error e
  | Except.ok user_prompt => Except.ok (messages ++ [Message.mk "user" user_prompt])

/-- `InterviewSession.add_exchange`: append, then keep only the last
`max_history` entries when the bound is exceeded. -/
def addExchange (s : InterviewSession) (question answer : String) : InterviewSession :=
  let h := s.history ++ [(question, answer)]
  if h.length > s.max_history then { s with history := lastSlice s.max_history h }
  else { s with history := h }

/-- The `_context_template` f-string of `_rebuild_session_prompts` (the
question placeholder sits in its own chunk of the concatenation; the string
value is unchanged). -/
def mkContextTemplate (profile job_context : String) : String :=
  "Context about the candidate:\n" ++ profile ++ "\n\nJob context:\n" ++ job_context ++
  "\n\nQuestion from interviewer: " ++ "\x7bquestion\x7d" ++ "\n\n" ++
  "Provide a concise 2-3 sentence answer that:\n- Directly addresses the question\n" ++
  "- References specific experience from the profile\n- Sounds natural and conversational\n" ++
  "- Stays under 100 words\n\nAnswer:"

/-- The user prompt that a successful `format` produces: the compiled
template's text with the question in place of the placeholder. -/
def mkUserPrompt (profile job_context question : String) : String :=
  "Context about the candidate:\n" ++ profile ++ "\n\nJob context:\n" ++ job_context ++
  "\n\nQuestion from interviewer: " ++ question ++ "\n\n" ++
  "Provide a concise 2-3 sentence answer that:\n- Directly addresses the question\n" ++
  "- References specific experience from the profile\n- Sounds natural and conversational\n" ++
  "- Stays under 100 words\n\nAnswer:"

/-- `true` when the string contains no brace characters (so, injected into
the template, it adds no replacement field and no stray brace). -/
def noBraces (s : String) : Bool :=
  s.toList.all (fun c => decide (¬ c = lbrace ∧ ¬ c = rbrace))

/-- `SessionManager._rebuild_session_prompts`: recompute both cached fields
from the session's source fields. -/
def rebuildSessionPrompts (s : InterviewSession) : InterviewSession :=
  { s with system_message := { role := "system", content := s.system_instruction },
           context_template := mkContextTemplate s.profile s.job_context }

/-- The JSON object written by `save_session`; note it has no field for the
derived template. -/
structure SessionData where
  session_id : String
  profile : String
  job_context : String
  system_instruction : String
  created_at : String
  history : List (String × String)
deriving DecidableEq, Repr

/-- The durable session file: absent, unreadable/corrupted, or readable. -/
inductive FileState where
  | absent
  | corrupt
  | saved (d : SessionData)
deriving DecidableEq, Repr

structure ManagerState where
  default_system_instruction : String
  current_session : Option InterviewSession
  file : FileState
  temp_file : Option SessionData
deriving DecidableEq, Repr

/-- The `data` dict built by `save_session` (history capped at
`max_history`). -/
def serializeSession (s : InterviewSession) : SessionData :=
  { session_id := s.session_id, profile := s.profile, job_context := s.job_context,
    system_instruction := s.system_instruction, created_at := s.created_at,
    history := lastSlice s.max_history s.history }

/-- `SessionManager.save_session` (successful-write path): with no current
session it returns before touching any file; otherwise the data is written
to the temp file and atomically renamed onto the session file, so after the
call the temp file is gone and the session file holds the data. -/
def saveSession (st : ManagerState) : ManagerState :=
  match st.current_session with
  | none => st
  | some s => { st with file := FileState.saved (serializeSession s), temp_file := none }

/-- `SessionManager.create_session`; the fresh `uuid4` id and the
`datetime.now().isoformat()` timestamp are inputs from the environment. -/
def createSession (st : ManagerState) (profile job_context : String)
    (system_instruction : Option String) (fresh_id created_at : String) :
    Except String (InterviewSession × ManagerState) :=
  if pyStrip profile.toList = [] ∧ pyStrip job_context.toList = [] then
    Except.error "At least one of profile or job_context must be provided"
  else
    let si := match system_instruction with
      | none => st.default_system_instruction
      | some s => if s = "" then st.default_system_instruction else s
    let session : InterviewSession :=
      rebuildSessionPrompts
        { session_id := fresh_id, profile := profile, job_context := job_context,
          system_instruction := si, created_at := created_at }
    let st' := saveSession { st with current_session := some session }
    Except.ok (session, st')

/-- `SessionManager.load_session`: absent file → `none`; unreadable file →
logged and `none`, manager state untouched; otherwise the session is rebuilt
from the persisted source fields (the derived template is recomputed, never
read from the file) and the whole persisted history list is restored. -/
def loadSession (st : ManagerState) : Option InterviewSession × ManagerState :=
  match st.file with
  | FileState.absent => (none, st)
  | FileState.corrupt => (none, st)
  | FileState.saved d =>
    let session : InterviewSession :=
      rebuildSessionPrompts
        { session_id := d.session_id, profile := d.profile, job_context := d.job_context,
          system_instruction := d.system_instruction, created_at := d.created_at }
    let session := { session with history := d.history }
    (some session, { st with current_session := some session })

/-- `SessionManager.clear_session`. -/
def clearSession (st : ManagerState) : ManagerState :=
  { st with current_session := none, file := FileState.absent }

theorem foldl_exchange_append (l : List (String × String)) (init : List Message) :
    l.foldl (fun ms qa => ms ++ [Message.mk "user" qa.1, Message.mk "assistant" qa.2]) init
      = init ++ (l.map fun qa => [Message.mk "user" qa.1, Message.mk "assistant" qa.2]).flatten := by
  induction l generalizing init with
  | nil => simp
  | cons qa rest ih => simp [ih]

theorem lastSlice_of_length_le {α : Type} {l : List α} {n : Nat} (h : l.length ≤ n) :
    lastSlice n l = l := by
  unfold lastSlice
  split
  · rfl
  · simp [Nat.sub_eq_zero_of_le h]

theorem pyFormatAux_cons_clean (q : List Char) (c : Char) (rest : List Char)
    (h1 : ¬ c = lbrace) (h2 : ¬ c = rbrace) :
    pyFormatAux q (c :: rest) FmtMode.text
      = (pyFormatAux q rest FmtMode.text).map (fun r => c :: r) := by
  rw [show pyFormatAux q (c :: rest) FmtMode.text
      = (if c = lbrace then pyFormatAux q rest FmtMode.sawLeft
         else if c = rbrace then pyFormatAux q rest FmtMode.sawRight
         else (pyFormatAux q rest FmtMode.text).map (fun r => c :: r)) from rfl,
    if_neg h1, if_neg h2]

theorem pyFormatAux_append_clean (q : List Char) (l rest : List Char) :
    l.all (fun c => decide (¬ c = lbrace ∧ ¬ c = rbrace)) = true →
    pyFormatAux q (l ++ rest) FmtMode.text
      = (pyFormatAux q rest FmtMode.text).map (fun r => l ++ r) := by
  induction l with
  | nil =>
    intro _
    simp only [List.nil_append]
    cases e : pyFormatAux q rest FmtMode.text <;> simp [Except.map]
  | cons c l ih =>
    intro hl
    simp only [List.all_cons, Bool.and_eq_true, decide_eq_true_eq] at hl
    obtain ⟨⟨h1, h2⟩, hrest⟩ := hl
    rw [List.cons_append, pyFormatAux_cons_clean q c (l ++ rest) h1 h2, ih hrest]
    cases e : pyFormatAux q rest FmtMode.text <;> simp [Except.map]

theorem pyFormatAux_clean (q l : List Char)
    (hl : l.all (fun c => decide (¬ c = lbrace ∧ ¬ c = rbrace)) = true) :
    pyFormatAux q l FmtMode.text = Except.ok l := by
  have h := pyFormatAux_append_clean q l [] hl
  rw [List.append_nil] at h
  rw [h, show pyFormatAux q ([] : List Char) FmtMode.text = Except.ok [] from rfl]
  simp [Except.map]

theorem pyFormatAux_placeholder (q rest : List Char) :
    pyFormatAux q (String.data "\x7bquestion\x7d" ++ rest) FmtMode.text
      = (pyFormatAux q rest FmtMode.text).map (fun r => q ++ r) := rfl

/-- On a template compiled from brace-free profile and job context, `format`
succeeds and produces the template text with the question substituted. -/
theorem formatTemplate_mkContextTemplate (p j q : String)
    (hp : noBraces p = true) (hj : noBraces j = true) :
    formatTemplate (mkContextTemplate p j) q = Except.ok (mkUserPrompt p j q) := by
  simp only [noBraces, String.toList] at hp hj
  simp only [formatTemplate, mkContextTemplate, String.toList, String.data_append,
    List.append_assoc]
  rw [pyFormatAux_append_clean _ (String.data "Context about the candidate:\n") _ (by decide),
    pyFormatAux_append_clean _ _ _ hp,
    pyFormatAux_append_clean _ (String.data "\n\nJob context:\n") _ (by decide),
    pyFormatAux_append_clean _ _ _ hj,
    pyFormatAux_append_clean _ (String.data "\n\nQuestion from interviewer: ") _ (by decide),
    pyFormatAux_placeholder,
    pyFormatAux_clean _ _ (by decide)]
  simp only [Except.map]
  have hdata :
      String.data "Context about the candidate:\n" ++ (p.data ++
        (String.data "\n\nJob context:\n" ++ (j.data ++
          (String.data "\n\nQuestion from interviewer: " ++ (q.data ++
            (String.data "\n\n" ++
              (String.data "Provide a concise 2-3 sentence answer that:\n- Directly addresses the question\n" ++
                (String.data "- References specific experience from the profile\n- Sounds natural and conversational\n" ++
                  String.data "- Stays under 100 words\n\nAnswer:"))))))))
        = (mkUserPrompt p j q).data := by
    simp [mkUserPrompt, String.data_append, List.append_assoc]
  rw [hdata]
  rfl

/-- A concrete session whose profile injects a stray replacement field into
the compiled template. -/
def bracedSession : InterviewSession :=
  { session_id := "id-3", profile := "\x7bx\x7d", job_context := "j",
    system_instruction := "s", created_at := "t",
    system_message := { role := "system", content := "s" },
    context_template := mkContextTemplate "\x7bx\x7d" "j",
    history := [], max_history := 3 }

/-- Counterexample to C3 as stated: on a session whose profile is the text
`\x7bx\x7d`, the `format` call inside `build_messages` raises
`KeyError: x`, so `build_messages` does not return a message list for every
session state. -/
theorem c3_braced_profile_raises :
    buildMessages bracedSession "Q" = Except.error "KeyError: x" := rfl

/-- Claim C3 (amended): for every session whose template was compiled from a
profile and job context free of brace characters (so the template's only
replacement field is the question placeholder — `str.format` raises on any
other brace construct, as the counterexample shows), `build_messages`
returns the ordered list [system-instruction message] ++ (the last at most 3
history pairs, oldest first, each expanded to a user then an assistant
message) ++ [the compiled context template with the question substituted].
The embedding consumes the session purely and returns only the message list,
matching the code's absence of any field write. -/
theorem c3_build_messages_shape (s : InterviewSession) (question : String)
    (hm : s.max_history = 3)
    (ht : s.context_template = mkContextTemplate s.profile s.job_context)
    (hp : noBraces s.profile = true) (hj : noBraces s.job_context = true) :
    buildMessages s question
      = Except.ok ([s.system_message]
          ++ ((lastSlice 3 s.history).map
                (fun qa => [Message.mk "user" qa.1, Message.mk "assistant" qa.2])).flatten
          ++ [Message.mk "user" (mkUserPrompt s.profile s.job_context question)]) := by
  simp only [buildMessages]
  rw [hm, foldl_exchange_append, ht,
    formatTemplate_mkContextTemplate s.profile s.job_context question hp hj]

/-- A concrete session used to instantiate the session theorems. -/
def sampleBase : InterviewSession :=
  { session_id := "id-1", profile := "a python dev", job_context := "backend role",
    system_instruction := "be concise", created_at := "2026-01-01T00:00:00",
    system_message := { role := "system", content := "be concise" },
    context_template := mkContextTemplate "a python dev" "backend role",
    history := [("q0", "a0")], max_history := 3 }

/-- Witness for C3 (amended) at a concrete brace-free session and
question. -/
theorem c3_build_messages_shape_witness :
    buildMessages sampleBase "Q"
      = Except.ok ([sampleBase.system_message]
          ++ ((lastSlice 3 sampleBase.history).map
                (fun qa => [Message.mk "user" qa.1, Message.mk "assistant" qa.2])).flatten
          ++ [Message.mk "user" (mkUserPrompt "a python dev" "backend role" "Q")]) :=
  c3_build_messages_shape sampleBase "Q" rfl rfl (by decide) (by decide)

/-- Claim C4: for a session whose history has at most 3 entries,
`add_exchange` appends the pair and keeps exactly the most recent 3 when the
bound would be exceeded; and adding 5 exchanges to a fresh session leaves
exactly the last 3, in order. -/
theorem c4_add_exchange_bound :
    (∀ (s : InterviewSession) (q a : String), s.max_history = 3 → s.history.length ≤ 3 →
      (addExchange s q a).history = lastSlice 3 (s.history ++ [(q, a)]))
    ∧ (addExchange (addExchange (addExchange (addExchange (addExchange
          { sampleBase with history := [] } "q1" "a1") "q2" "a2") "q3" "a3")
            "q4" "a4") "q5" "a5").history
        = [("q3", "a3"), ("q4", "a4"), ("q5", "a5")] := by
  constructor
  · intro s q a hm hl
    simp only [addExchange]
    rw [hm]
    split
    · rfl
    · next hc =>
      rw [lastSlice_of_length_le (Nat.le_of_not_lt hc)]
  · rfl

/-- Witness for C4's universally quantified part at a concrete session. -/
theorem c4_add_exchange_bound_witness :
    (addExchange sampleBase "q" "a").history
      = lastSlice 3 (sampleBase.history ++ [("q", "a")]) :=
  c4_add_exchange_bound.1 sampleBase "q" "a" rfl (by decide)

/-- A concrete manager state with no current session and no saved file. -/
def initialManager : ManagerState :=
  { default_system_instruction := "be concise", current_session := none,
    file := FileState.absent, temp_file := none }

/-- Claim C2: creating a session (which saves it) and then loading it yields
a session whose `build_messages` output for any question is identical to the
pre-save session's, with empty history on both sides; the derived template
is recomputed from the persisted source fields (`SessionData` carries no
template field to deserialize). -/
theorem c2_session_roundtrip (st : ManagerState)
    (profile job_context question fresh_id created_at : String)
    (h : ¬ (pyStrip profile.toList = [] ∧ pyStrip job_context.toList = [])) :
    ∃ s1 st1, createSession st profile job_context none fresh_id created_at
        = Except.ok (s1, st1)
      ∧ ∃ s2 st2, loadSession st1 = (some s2, st2)
        ∧ s1.history = [] ∧ s2.history = []
        ∧ buildMessages s2 question = buildMessages s1 question := by
  simp only [createSession, if_neg h]
  exact ⟨_, _, rfl, _, _, rfl, rfl, rfl, rfl⟩

/-- Witness for C2 at concrete profile, job context and question. -/
theorem c2_session_roundtrip_witness :
    ∃ s1 st1, createSession initialManager "a python dev" "backend role" none "id-2" "t1"
        = Except.ok (s1, st1)
      ∧ ∃ s2 st2, loadSession st1 = (some s2, st2)
        ∧ s1.history = [] ∧ s2.history = []
        ∧ buildMessages s2 "Q" = buildMessages s1 "Q" :=
  c2_session_roundtrip initialManager "a python dev" "backend role" "Q" "id-2" "t1" (by decide)

/-- Claim C5: `create_session` fails iff both profile and job_context are
empty or whitespace-only; on success the returned session carries the fresh
environment-supplied id, the template compiled from profile and job_context,
and empty history, becomes the current session of the post-state (replacing
any prior current session of the arbitrary pre-state), and is persisted
immediately. -/
theorem c5_create_session (st : ManagerState) (profile job_context : String)
    (system_instruction : Option String) (fresh_id created_at : String) :
    ((∃ e, createSession st profile job_context system_instruction fresh_id created_at
        = Except.error e)
      ↔ (pyStrip profile.toList = [] ∧ pyStrip job_context.toList = []))
    ∧ (¬ (pyStrip profile.toList = [] ∧ pyStrip job_context.toList = []) →
        ∃ s st', createSession st profile job_context system_instruction fresh_id created_at
            = Except.ok (s, st')
          ∧ s.session_id = fresh_id
          ∧ s.context_template = mkContextTemplate profile job_context
          ∧ s.history = []
          ∧ st'.current_session = some s
          ∧ st'.file = FileState.saved (serializeSession s)) := by
  constructor
  · constructor
    · rintro ⟨e, he⟩
      by_cases hc : (pyStrip profile.toList = [] ∧ pyStrip job_context.toList = [])
      · exact hc
      · simp only [createSession, if_neg hc] at he
        exact absurd he (by simp)
    · intro hc
      refine ⟨"At least one of profile or job_context must be provided", ?_⟩
      simp only [createSession, if_pos hc]
  · intro hc
    simp only [createSession, if_neg hc]
    exact ⟨_, _, rfl, rfl, rfl, rfl, rfl, rfl⟩

/-- Witness for C5's success part at concrete inputs (empty job context but
non-blank profile, so creation succeeds). -/
theorem c5_create_session_witness :
    ∃ s st', createSession initialManager "a python dev" "" none "id-9" "t0"
        = Except.ok (s, st')
      ∧ s.session_id = "id-9"
      ∧ s.context_template = mkContextTemplate "a python dev" ""
      ∧ s.history = []
      ∧ st'.current_session = some s
      ∧ st'.file = FileState.saved (serializeSession s) :=
  (c5_create_session initialManager "a python dev" "" none "id-9" "t0").2 (by decide)

/-- A concrete manager state whose session file holds four history pairs
(more than `max_history = 3`). -/
def overfullFileState : ManagerState :=
  { default_system_instruction := "", current_session := none, temp_file := none,
    file := FileState.saved
      { session_id := "id-8", profile := "p", job_context := "j",
        system_instruction := "s", created_at := "t",
        history := [("q1", "a1"), ("q2", "a2"), ("q3", "a3"), ("q4", "a4")] } }

/-- Counterexample to C8 as stated: loading a session file that holds four
history pairs restores all four of them, not at most 3. -/
theorem c8_load_restores_four :
    Option.map (fun s => s.history.length) (loadSession overfullFileState).1 = some 4 := rfl

/-- Claim C8 (amended): `load_session` returns `none` and leaves the manager
state unchanged when the file is absent or unreadable/corrupted; when the
file is readable it recomputes the derived template and system message from
the restored profile, job_context and system_instruction (no derived field
exists in the file to deserialize) and restores exactly the history list
stored in the file — load itself performs no truncation to 3 (files written
by `save_session` hold at most 3 entries). -/
theorem c8_load_session (st : ManagerState) :
    (st.file = FileState.absent → loadSession st = (none, st))
    ∧ (st.file = FileState.corrupt → loadSession st = (none, st))
    ∧ (∀ d, st.file = FileState.saved d →
        ∃ s, loadSession st = (some s, { st with current_session := some s })
          ∧ s.context_template = mkContextTemplate d.profile d.job_context
          ∧ s.system_message = Message.mk "system" d.system_instruction
          ∧ s.history = d.history) := by
  refine ⟨?_, ?_, ?_⟩
  · intro h; simp only [loadSession, h]
  · intro h; simp only [loadSession, h]
  · intro d h
    simp only [loadSession, h]
    exact ⟨_, rfl, rfl, rfl, rfl⟩

/-- Witness for C8 (amended) at the concrete four-pair file state. -/
theorem c8_load_session_witness :
    ∃ s, loadSession overfullFileState
        = (some s, { overfullFileState with current_session := some s })
      ∧ s.context_template = mkContextTemplate "p" "j"
      ∧ s.system_message = Message.mk "system" "s"
      ∧ s.history = [("q1", "a1"), ("q2", "a2"), ("q3", "a3"), ("q4", "a4")] :=
  (c8_load_session overfullFileState).2.2
    { session_id := "id-8", profile := "p", job_context := "j",
      system_instruction := "s", created_at := "t",
      history := [("q1", "a1"), ("q2", "a2"), ("q3", "a3"), ("q4", "a4")] } rfl

/-- Claim C10: with no current session, `save_session` returns immediately:
the session file, the temp file and every other manager-state component are
unchanged by the call. -/
theorem c10_save_session_no_current (st : ManagerState)
    (h : st.current_session = none) : saveSession st = st := by
  simp only [saveSession, h]

/-- Witness for C10 at a concrete sessionless manager state. -/
theorem c10_save_session_no_current_witness :
    saveSession initialManager = initialManager :=
  c10_save_session_no_current initialManager rfl

/-! ### LLM client (llm_client.py): sanitization and question detection -/

/-- The characters removed by the sanitizer's regex
`[\x00-\x1f\x7f-\x9f]`. -/
def isCtrl (c : Char) : Bool :=
  c.toNat ≤ 0x1f || (0x7f ≤ c.toNat && c.toNat ≤ 0x9f)

/-- `LLMClient._validate_and_sanitize_question`: reject a falsy input, strip
whitespace, truncate to 500 characters when longer, drop control characters,
then reject when fewer than 5 characters remain. -/
def validateAndSanitizeQuestion (question : List Char) : Option (List Char) :=
  if question = [] then none
  else
    let q := pyStrip question
    let q := if q.length > 500 then q.take 500 else q
    let q := q.filter (fun c => !(isCtrl c))
    if q.length < 5 then none else some q

/-- The sanitization pipeline in the order claim C6 states it: trim, drop
control characters, THEN truncate to 500; reject when fewer than 5
characters remain. -/
def claimSanitizeQuestion (question : List Char) : Option (List Char) :=
  if (((pyStrip question).filter (fun c => !(isCtrl c))).take 500).length < 5 then none
  else some (((pyStrip question).filter (fun c => !(isCtrl c))).take 500)

/-- The sanitization pipeline in the order the code performs it: trim,
truncate to 500, then drop control characters; reject when fewer than 5
characters remain. -/
def amendedSanitizeQuestion (question : List Char) : Option (List Char) :=
  if (((pyStrip question).take 500).filter (fun c => !(isCtrl c))).length < 5 then none
  else some (((pyStrip question).take 500).filter (fun c => !(isCtrl c)))

/-- 500 copies of the control character `\x01` followed by `hello`. -/
def ctrlPaddedQuestion : List Char :=
  List.replicate 500 (Char.ofNat 1) ++ "hello".toList

/-- Counterexample to C6 as stated: on 500 control characters followed by
`hello`, the code truncates away the five usable characters before the
control characters are dropped and rejects, while the claim's
trim-drop-truncate order keeps `hello` and accepts. -/
theorem c6_sanitize_order_cex :
    validateAndSanitizeQuestion ctrlPaddedQuestion = none
    ∧ claimSanitizeQuestion ctrlPaddedQuestion = some "hello".toList := by
  constructor <;> rfl

/-- Claim C6 (amended): the sanitizer trims whitespace, then truncates to at
most 500 characters, then drops control characters, and rejects exactly when
fewer than 5 characters remain after these steps. -/
theorem c6_sanitize_is_trim_truncate_drop (question : List Char) :
    validateAndSanitizeQuestion question = amendedSanitizeQuestion question := by
  simp only [validateAndSanitizeQuestion, amendedSanitizeQuestion]
  by_cases hq : question = []
  · subst hq; rfl
  · rw [if_neg hq]
    by_cases hl : (pyStrip question).length > 500
    · rw [if_pos hl]
    · rw [if_neg hl, List.take_of_length_le (Nat.le_of_not_lt hl)]

/-! ### Question detection (`LLMClient.is_question`) -/

/-- The `question_words` marker list. -/
def questionWords : List (List Char) :=
  ["what", "when", "where", "who", "why", "how",
   "can you", "could you", "would you", "will you",
   "do you", "did you", "have you", "are you", "is there",
   "tell me", "explain", "describe", "walk me through",
   "experience with", "worked on", "your background"].map String.toList

/-- The `preambles` list of leading filler words. -/
def preambles : List (List Char) :=
  ["great", "okay", "alright", "so", "now", "well", "thanks", "thank you"].map String.toList

/-- Python `text.startswith(pat)` (first argument is the pattern). -/
def startsWithL : List Char → List Char → Bool
  | [], _ => true
  | _ :: _, [] => false
  | p :: ps, c :: cs => p == c && startsWithL ps cs

/-- Python `pat in text` (substring containment). -/
def containsSub (p : List Char) : List Char → Bool
  | [] => startsWithL p []
  | c :: cs => startsWithL p (c :: cs) || containsSub p cs

/-- Python `text.endswith('?')`. -/
def endsWithQM (l : List Char) : Bool := l.getLast? == some '?'

/-- Python `' '.join(ws)`. -/
def joinWords : List (List Char) → List Char
  | [] => []
  | [w] => w
  | w :: ws => w ++ ' ' :: joinWords ws

/-- The preamble-stripping step: `if words and words[0] in preambles:
text = ' '.join(words[1:])`, else the text is left as is. -/
def remainderAfterPreamble (t : List Char) : List Char :=
  match pySplit t with
  | w :: rest => if w ∈ preambles then joinWords rest else t
  | [] => t

/-- `LLMClient.is_question`, clause by clause: falsy/short rejection first;
then, on the lower-cased stripped text: fewer than 4 words rejects, one
leading preamble word is stripped (rejoining the rest with single spaces),
and the text is accepted on a marker at the start or anywhere, or a trailing
question mark. -/
def isQuestion (text : List Char) : Bool :=
  if text = [] ∨ (pyStrip text).length < 5 then false
  else
    let t := pyLower (pyStrip text)
    if (pySplit t).length < 4 then false
    else
      questionWords.any (fun w => startsWithL w (remainderAfterPreamble t))
      || questionWords.any (fun w => containsSub w (remainderAfterPreamble t))
      || endsWithQM (remainderAfterPreamble t)

/-- The question-detection rule exactly as claim C7 states it, a function of
the lower-cased trimmed text: reject under 4 words; strip one leading
preamble word; accept on a marker at the start of or anywhere in the
remaining text, or when the text ends with a question mark; otherwise
reject. -/
def claimIsQuestion (t : List Char) : Bool :=
  if (pySplit t).length < 4 then false
  else
    questionWords.any (fun w => startsWithL w (remainderAfterPreamble t))
    || questionWords.any (fun w => containsSub w (remainderAfterPreamble t))
    || endsWithQM t

theorem splitWsAux_nil (acc : List Char) :
    splitWsAux [] acc = if acc = [] then [] else [acc.reverse] := rfl

theorem splitWsAux_cons (c : Char) (cs : List Char) (acc : List Char) :
    splitWsAux (c :: cs) acc =
      if pyIsSpace c then
        (if acc = [] then splitWsAux cs [] else acc.reverse :: splitWsAux cs [])
      else splitWsAux cs (c :: acc) := rfl

theorem joinWords_cons_cons (w x : List Char) (ws : List (List Char)) :
    joinWords (w :: x :: ws) = w ++ ' ' :: joinWords (x :: ws) := rfl

theorem splitWsAux_two_mul_length (l : List Char) :
    ∀ acc, 2 * (splitWsAux l acc).length ≤ l.length + 2
      ∧ (acc = [] → 2 * (splitWsAux l acc).length ≤ l.length + 1) := by
  induction l with
  | nil =>
    intro acc
    rw [splitWsAux_nil]
    by_cases h : acc = []
    · rw [if_pos h]
      exact ⟨by simp, fun _ => by simp⟩
    · rw [if_neg h]
      exact ⟨by simp, fun hc => absurd hc h⟩
  | cons c cs ih =>
    intro acc
    have h1 := (ih []).2 rfl
    have h2 := (ih (c :: acc)).1
    rw [splitWsAux_cons]
    constructor
    · split_ifs with hsp hacc <;> simp only [List.length_cons] <;> omega
    · intro h
      subst h
      split_ifs with hsp hacc
      · simp only [List.length_cons]; omega
      · exact absurd rfl hacc
      · simp only [List.length_cons]; omega

theorem pySplit_length_lt {l : List Char} (h : l.length < 5) :
    (pySplit l).length < 4 := by
  have h1 := (splitWsAux_two_mul_length l []).2 rfl
  unfold pySplit
  omega

theorem splitWsAux_mem_ne_nil (l : List Char) :
    ∀ acc w, w ∈ splitWsAux l acc → w ≠ [] := by
  induction l with
  | nil =>
    intro acc w hw
    rw [splitWsAux_nil] at hw
    split at hw
    · simp at hw
    · next h =>
      simp only [List.mem_singleton] at hw
      subst hw
      simp only [ne_eq, List.reverse_eq_nil_iff]
      exact h
  | cons c cs ih =>
    intro acc w hw
    rw [splitWsAux_cons] at hw
    split at hw
    · split at hw
      · exact ih [] w hw
      · next h =>
        rcases List.mem_cons.mp hw with h1 | h1
        · subst h1
          simp only [ne_eq, List.reverse_eq_nil_iff]
          exact h
        · exact ih [] w h1
    · exact ih (c :: acc) w hw

theorem head?_dropWhile_false (p : Char → Bool) (l : List Char) :
    ∀ c, ((l.dropWhile p).head? = some c) → p c = false := by
  induction l with
  | nil => intro c h; simp [List.dropWhile] at h
  | cons a l ih =>
    intro c h
    rw [List.dropWhile_cons] at h
    split at h
    · exact ih c h
    · next hp =>
      simp only [List.head?_cons, Option.some.injEq] at h
      subst h
      simpa using hp

theorem pyStrip_getLast_not_space (l : List Char) :
    ∀ c, (pyStrip l).getLast? = some c → pyIsSpace c = false := by
  intro c h
  unfold pyStrip at h
  rw [List.getLast?_reverse] at h
  exact head?_dropWhile_false pyIsSpace _ c h

theorem pyLowerChar_not_space {c : Char} (h : pyIsSpace c = false) :
    pyIsSpace (pyLowerChar c) = false := by
  unfold pyLowerChar
  split <;> first | rfl | exact h

theorem getLast?_pyLower (l : List Char) :
    (pyLower l).getLast? = Option.map pyLowerChar l.getLast? := by
  induction l with
  | nil => rfl
  | cons a l ih =>
    cases l with
    | nil => rfl
    | cons b t =>
      simp only [pyLower, List.map_cons, List.getLast?_cons_cons] at ih ⊢
      exact ih

theorem normalized_getLast_not_space (text : List Char) :
    ∀ c, (pyLower (pyStrip text)).getLast? = some c → pyIsSpace c = false := by
  intro c h
  rw [getLast?_pyLower] at h
  cases hg : (pyStrip text).getLast? with
  | none => rw [hg] at h; simp at h
  | some d =>
    rw [hg] at h
    simp only [Option.map_some', Option.some.injEq] at h
    rw [← h]
    exact pyLowerChar_not_space (pyStrip_getLast_not_space text d hg)

theorem splitWsAux_getLast (l : List Char) :
    ∀ acc c, l.getLast? = some c → pyIsSpace c = false →
      ∃ w, (splitWsAux l acc).getLast? = some w ∧ w.getLast? = some c := by
  induction l with
  | nil => intro acc c h _; simp at h
  | cons a cs ih =>
    intro acc c h hns
    cases cs with
    | nil =>
      simp only [List.getLast?_singleton, Option.some.injEq] at h
      subst h
      rw [splitWsAux_cons, if_neg (by simp [hns]), splitWsAux_nil,
        if_neg (List.cons_ne_nil a acc)]
      refine ⟨(a :: acc).reverse, by simp, ?_⟩
      rw [List.reverse_cons]
      exact List.getLast?_concat _
    | cons b t =>
      rw [List.getLast?_cons_cons] at h
      rw [splitWsAux_cons]
      by_cases hsp : pyIsSpace a
      · rw [if_pos hsp]
        by_cases hacc : acc = []
        · rw [if_pos hacc]
          exact ih [] c h hns
        · rw [if_neg hacc]
          obtain ⟨w, hw1, hw2⟩ := ih [] c h hns
          refine ⟨w, ?_, hw2⟩
          obtain ⟨y, ys, hys⟩ : ∃ y ys, splitWsAux (b :: t) [] = y :: ys := by
            rcases he : splitWsAux (b :: t) [] with _ | ⟨y, ys⟩
            · rw [he] at hw1; simp at hw1
            · exact ⟨y, ys, rfl⟩
          rw [hys, List.getLast?_cons_cons, ← hys]
          exact hw1
      · rw [if_neg hsp]
        exact ih (a :: acc) c h hns

theorem joinWords_getLast (ws : List (List Char)) :
    ws ≠ [] → (∀ w ∈ ws, w ≠ []) →
      ∃ w, ws.getLast? = some w ∧ (joinWords ws).getLast? = w.getLast? := by
  induction ws with
  | nil => intro h _; exact absurd rfl h
  | cons w ws ih =>
    intro _ hne
    cases ws with
    | nil => exact ⟨w, by simp, rfl⟩
    | cons x ws' =>
      obtain ⟨w', hw1, hw2⟩ :=
        ih (List.cons_ne_nil x ws') (fun u hu => hne u (List.mem_cons_of_mem w hu))
      have hw'ne : w' ≠ [] :=
        hne w' (List.mem_cons_of_mem w (List.mem_of_getLast?_eq_some hw1))
      obtain ⟨c, hc⟩ : ∃ c, w'.getLast? = some c := by
        rcases hwl : w'.getLast? with _ | ⟨c⟩
        · exact absurd (List.getLast?_eq_none_iff.mp hwl) hw'ne
        · exact ⟨c, rfl⟩
      have hjne : joinWords (x :: ws') ≠ [] := by
        intro hemp
        rw [hemp] at hw2
        rw [hc] at hw2
        simp at hw2
      refine ⟨w', ?_, ?_⟩
      · rw [List.getLast?_cons_cons]; exact hw1
      · rw [joinWords_cons_cons]
        obtain ⟨y, ys, hj⟩ := List.exists_cons_of_ne_nil hjne
        rw [hj, List.getLast?_append, List.getLast?_cons_cons]
        have hys : (y :: ys).getLast? = some c := by rw [← hj, hw2, hc]
        rw [hys, Option.or_some, hc]

theorem endsWithQM_remainder (t : List Char)
    (hlast : ∀ c, t.getLast? = some c → pyIsSpace c = false)
    (h4 : 4 ≤ (pySplit t).length) :
    endsWithQM (remainderAfterPreamble t) = endsWithQM t := by
  unfold remainderAfterPreamble
  rcases hsp : pySplit t with _ | ⟨w0, rest⟩
  · simp [hsp] at h4
  · change endsWithQM (if w0 ∈ preambles then joinWords rest else t) = endsWithQM t
    by_cases hpre : w0 ∈ preambles
    · rw [if_pos hpre]
      have htne : t ≠ [] := by
        intro he
        subst he
        rw [show pySplit [] = [] from rfl] at hsp
        exact List.cons_ne_nil w0 rest hsp.symm
      obtain ⟨cl, hcl⟩ :=
        Option.isSome_iff_exists.mp (List.getLast?_isSome.mpr htne)
      have hclns := hlast cl hcl
      obtain ⟨w, hw1, hw2⟩ := splitWsAux_getLast t [] cl hcl hclns
      rw [show splitWsAux t [] = pySplit t from rfl, hsp] at hw1
      have hrestne : rest ≠ [] := by
        intro he
        subst he
        rw [hsp] at h4
        simp at h4
      obtain ⟨y, ys, hre⟩ := List.exists_cons_of_ne_nil hrestne
      have hw1' : rest.getLast? = some w := by
        rw [hre] at hw1 ⊢
        rw [List.getLast?_cons_cons] at hw1
        exact hw1
      have hwordsne : ∀ u ∈ rest, u ≠ [] := by
        intro u hu
        refine splitWsAux_mem_ne_nil t [] u ?_
        rw [show splitWsAux t [] = pySplit t from rfl, hsp]
        exact List.mem_cons_of_mem w0 hu
      obtain ⟨w', hj1, hj2⟩ := joinWords_getLast rest hrestne hwordsne
      have hww : w' = w := by
        rw [hw1'] at hj1
        exact (Option.some.injEq _ _ ▸ hj1).symm ▸ rfl
      unfold endsWithQM
      rw [hj2, hww, hw2, hcl]
    · rw [if_neg hpre]

theorem isQuestion_eq_claim (text : List Char) :
    isQuestion text = claimIsQuestion (pyLower (pyStrip text)) := by
  simp only [isQuestion, claimIsQuestion]
  by_cases h5 : text = [] ∨ (pyStrip text).length < 5
  · rw [if_pos h5]
    have hlen : (pyLower (pyStrip text)).length < 5 := by
      unfold pyLower
      rw [List.length_map]
      rcases h5 with h | h
      · subst h; simp [pyStrip]
      · exact h
    rw [if_pos (pySplit_length_lt hlen)]
  · rw [if_neg h5]
    by_cases h4 : (pySplit (pyLower (pyStrip text))).length < 4
    · rw [if_pos h4, if_pos h4]
    · rw [if_neg h4, if_neg h4,
        endsWithQM_remainder (pyLower (pyStrip text))
          (normalized_getLast_not_space text) (Nat.le_of_not_lt h4)]

/-- Claim C7: the question-detection heuristic equals, on every input, the
deterministic rule over the lower-cased trimmed text that claim C7 spells
out (reject under 4 words, strip one leading preamble word, accept on an
interrogative marker at the start or anywhere or on a trailing question
mark, otherwise reject); and the four quoted examples behave as stated. -/
theorem c7_question_detection :
    (∀ text, isQuestion text = claimIsQuestion (pyLower (pyStrip text)))
    ∧ isQuestion "what is your experience with distributed systems".toList = true
    ∧ isQuestion "the weather is nice today".toList = false
    ∧ isQuestion "ok".toList = false
    ∧ isQuestion "Tell me about a challenge you faced?".toList = true :=
  ⟨isQuestion_eq_claim, by decide, by decide, by decide, by decide⟩

/-! ### Answer generation (`LLMClient.generate_answer_with_session`)

The `ollama.chat` network call is the environment; its behaviour is a
`ChatOutcome` argument.  `raises` is the call throwing (caught by the outer
handler), `malformed` is a response whose structure the inner
`except (KeyError, AttributeError, TypeError)` clause rejects, and `returns`
carries the `message.content` string of a structurally valid response. -/

inductive ChatOutcome where
  | raises (msg : String)
  | malformed
  | returns (content : String)

/-- `LLMClient.generate_answer_with_session`: validate and sanitize, check
question-hood, then issue the call; an empty stripped content raises
`ValueError("Empty response from LLM")` which the outer handler formats; the
exchange is recorded only after a successful non-empty answer.  Returns the
Python return value (`None` or a string) and the post-state of the
session. -/
def generateAnswerWithSession (outcome : ChatOutcome) (session : InterviewSession)
    (question : String) : Option String × InterviewSession :=
  match validateAndSanitizeQuestion question.toList with
  | none => (none, session)
  | some q =>
    if isQuestion q then
      match outcome with
      | ChatOutcome.raises e =>
          (some ("Error: Unable to generate answer (" ++ e ++ ")"), session)
      | ChatOutcome.malformed =>
          (some "Error: Received invalid response from LLM", session)
      | ChatOutcome.returns content =>
          let answer := (pyStrip content.toList).asString
          if answer = "" then
            (some "Error: Unable to generate answer (Empty response from LLM)", session)
          else
            (some answer, addExchange session q.asString answer)
    else (none, session)

/-- Claim C9: every service-failure path — the call raising, a malformed
response, or an empty response — leaves the session unchanged; whenever the
call was actually issued (validation and detection passed) those paths
return an error string carrying the failure description; and the session
changes only on a successful non-empty response, by appending exactly the
sanitized question and the stripped answer. -/
theorem c9_generate_failure_paths (session : InterviewSession) (question : String) :
    (∀ e, (generateAnswerWithSession (ChatOutcome.raises e) session question).2 = session)
    ∧ (generateAnswerWithSession ChatOutcome.malformed session question).2 = session
    ∧ (∀ content, pyStrip content.toList = [] →
        (generateAnswerWithSession (ChatOutcome.returns content) session question).2 = session)
    ∧ (∀ q, validateAndSanitizeQuestion question.toList = some q → isQuestion q = true →
        (∀ e, (generateAnswerWithSession (ChatOutcome.raises e) session question).1
            = some ("Error: Unable to generate answer (" ++ e ++ ")"))
        ∧ (generateAnswerWithSession ChatOutcome.malformed session question).1
            = some "Error: Received invalid response from LLM"
        ∧ (∀ content, pyStrip content.toList = [] →
            (generateAnswerWithSession (ChatOutcome.returns content) session question).1
              = some "Error: Unable to generate answer (Empty response from LLM)"))
    ∧ (∀ oc, (generateAnswerWithSession oc session question).2 ≠ session →
        ∃ content q, oc = ChatOutcome.returns content
          ∧ validateAndSanitizeQuestion question.toList = some q
          ∧ isQuestion q = true
          ∧ (pyStrip content.toList).asString ≠ ""
          ∧ generateAnswerWithSession oc session question
              = (some ((pyStrip content.toList).asString),
                 addExchange session q.asString ((pyStrip content.toList).asString))) := by
  cases hv : validateAndSanitizeQuestion question.data with
  | none =>
    refine ⟨?_, ?_, ?_, ?_, ?_⟩
    · intro e; simp [generateAnswerWithSession, hv]
    · simp [generateAnswerWithSession, hv]
    · intro content _; simp [generateAnswerWithSession, hv]
    · intro q hq
      simp only [String.toList] at hq
      rw [hv] at hq
      cases hq
    · intro oc hne
      exact absurd (by simp [generateAnswerWithSession, hv]) hne
  | some q0 =>
    by_cases hq : isQuestion q0 = true
    · refine ⟨?_, ?_, ?_, ?_, ?_⟩
      · intro e; simp [generateAnswerWithSession, hv, hq]
      · simp [generateAnswerWithSession, hv, hq]
      · intro content hc
        simp only [String.toList] at hc
        have ha : (pyStrip content.data).asString = "" := by rw [hc]; rfl
        simp [generateAnswerWithSession, hv, hq, ha]
      · intro q hq'
        simp only [String.toList] at hq'
        rw [hv] at hq'
        injection hq' with hqq
        subst hqq
        intro _
        refine ⟨?_, ?_, ?_⟩
        · intro e; simp [generateAnswerWithSession, hv, hq]
        · simp [generateAnswerWithSession, hv, hq]
        · intro content hc
          simp only [String.toList] at hc
          have ha : (pyStrip content.data).asString = "" := by rw [hc]; rfl
          simp [generateAnswerWithSession, hv, hq, ha]
      · intro oc hne
        cases oc with
        | raises e => exact absurd (by simp [generateAnswerWithSession, hv, hq]) hne
        | malformed => exact absurd (by simp [generateAnswerWithSession, hv, hq]) hne
        | returns content =>
          by_cases ha : (pyStrip content.data).asString = ""
          · exact absurd (by simp [generateAnswerWithSession, hv, hq, ha]) hne
          · exact ⟨content, q0, rfl, hv, hq, ha,
              by simp [generateAnswerWithSession, hv, hq, ha]⟩
    · have hq' : isQuestion q0 = false := by
        cases hb : isQuestion q0
        · rfl
        · exact absurd hb hq
      refine ⟨?_, ?_, ?_, ?_, ?_⟩
      · intro e; simp [generateAnswerWithSession, hv, hq']
      · simp [generateAnswerWithSession, hv, hq']
      · intro content _; simp [generateAnswerWithSession, hv, hq']
      · intro q hqq hqt
        simp only [String.toList] at hqq
        rw [hv] at hqq
        injection hqq with hqe
        subst hqe
        exact absurd hqt hq
      · intro oc hne
        exact absurd (by simp [generateAnswerWithSession, hv, hq']) hne

/-- Witness for C9 at a concrete session, question and failing outcome. -/
theorem c9_generate_failure_paths_witness :
    (generateAnswerWithSession (ChatOutcome.raises "connection refused") sampleBase
        "what is your experience with distributed systems").2 = sampleBase
    ∧ (generateAnswerWithSession (ChatOutcome.raises "connection refused") sampleBase
        "what is your experience with distributed systems").1
      = some "Error: Unable to generate answer (connection refused)" :=
  ⟨(c9_generate_failure_paths sampleBase
      "what is your experience with distributed systems").1 "connection refused",
   ((c9_generate_failure_paths sampleBase
      "what is your experience with distributed systems").2.2.2.1
      "what is your experience with distributed systems".toList
      (by decide) (by decide)).1 "connection refused"⟩

end InterviewCopilot
